import Mathlib

/-!
A shallow embedding of `src/Tester.js` from the cavy repository, together
with proofs of the specified properties of the test-orchestration harness.

The embedding models:
* the `Tester` component (constructor, `componentDidMount`, `runTests`,
  `reRender`, `clearAsync`, `render`, `defaultProps`),
* the registration/execution event trace produced by a mount, following
  JavaScript async-function semantics (an `async` function runs
  synchronously up to its first `await`; the continuation runs later,
  after the caller's synchronous code has finished),
* the external `AsyncStorage` collaborator as an explicit fallible store,
* the Scheduler's report assembly (the `TestRunner` module is not part of
  the sources under verification, so it is modelled from the spec).
-/

namespace Cavy

/-- An entry of the `TestHookStore` element registry: identifier together
with an opaque element handle (modelled as a number). -/
structure TestHookStore where
  hooks : List (String × Nat)
deriving DecidableEq

/-- A test case registered by spec code via `describe`: its description.
(The case body is modelled separately, as an outcome oracle, where it is
needed.) -/
structure TestCase where
  description : String
deriving DecidableEq

/-- A specification function, modelled by the list of test cases it
registers against the scope it is handed (spec functions synchronously
describe test cases). -/
abbrev Spec := List TestCase

/-- The reporter sink held in `this.reporter`: either a plain function
(kept as-is by the constructor) or an object instance carrying a `type`
field consulted by `componentDidMount`. Functions and classes are opaque;
they are modelled by a numeric identity. -/
inductive Sink where
  | fnSink (f : Nat)
  | objSink (className : Nat) (sinkType : String)
deriving DecidableEq

/-- A reporter class, as passed in the `reporter` prop (or the built-in
default): instantiating it yields an object sink whose `type` field is
determined by the class. -/
structure SinkClass where
  className : Nat
  sinkType : String
deriving DecidableEq

/-- Modelled from the spec: the built-in default `Reporter` class
(`src/Reporter.js`, not under the verified sources) — "a built-in sink
that transmits to an external collector if reachable"; it is a class and
is not the realtime kind. -/
def Reporter : SinkClass := { className := 0, sinkType := "standard" }

/-- `new reporterClass` — instantiating a sink class. -/
def instantiateSink (c : SinkClass) : Sink :=
  Sink.objSink c.className c.sinkType

/-- The `reporter` prop as received: absent (or falsy), a plain function,
or a reporter class. -/
inductive ReporterProp where
  | noReporter
  | fnProp (f : Nat)
  | classProp (c : SinkClass)
deriving DecidableEq

/-- The deprecation warning logged for function reporters
(`Tester.js` lines 63-68). -/
def deprecationWarning : String :=
  "Deprecation warning: support for custom function" ++
  "reporters will soon be deprecated. Cavy supports custom " ++
  "class based reporters. For more info, see the " ++
  "documentation here: " ++
  "https://cavy.app/docs/guides/writing-custom-reporters"

/-- The mutable component pieces of a `Tester` instance that the harness
code touches: `this.state.key`, `this.testHookStore`, `this.reporter`. -/
structure TesterInst where
  stateKey : Nat
  testHookStore : TestHookStore
  reporter : Sink
deriving DecidableEq

/-- `Tester`'s constructor (`Tester.js` lines 54-74): seeds `state.key`
with a random value (`initialKey` stands for the `Math.random()` draw),
stores the `store` prop in `this.testHookStore`, and selects the reporter:
a function prop is kept directly (logging the deprecation warning), an
object/class prop is instantiated, and with no prop the built-in
`Reporter` is instantiated. Returns the instance and the warnings
logged. -/
def testerConstructor (initialKey : Nat) (store : TestHookStore)
    (rp : ReporterProp) : TesterInst × List String :=
  match rp with
  | ReporterProp.fnProp f =>
      ({ stateKey := initialKey, testHookStore := store,
         reporter := Sink.fnSink f }, [deprecationWarning])
  | ReporterProp.classProp c =>
      ({ stateKey := initialKey, testHookStore := store,
         reporter := instantiateSink c }, [])
  | ReporterProp.noReporter =>
      ({ stateKey := initialKey, testHookStore := store,
         reporter := instantiateSink Reporter }, [])

/-- The props carrying configuration defaults, each `none` when the
corresponding option is omitted. -/
structure TesterProps where
  clearAsyncStorage : Option Bool
  startDelay : Option Nat
  waitTime : Option Nat
deriving DecidableEq

/-- The resolved configuration after React applies `defaultProps`. -/
structure ResolvedProps where
  clearAsyncStorage : Bool
  startDelay : Nat
  waitTime : Nat
deriving DecidableEq

/-- `Tester.defaultProps` (`Tester.js` lines 146-150). -/
def defaultProps : ResolvedProps :=
  { clearAsyncStorage := false, startDelay := 0, waitTime := 2000 }

/-- React's defaultProps resolution: a supplied prop wins, an omitted one
falls back to `Tester.defaultProps`. -/
def resolveProps (p : TesterProps) : ResolvedProps :=
  { clearAsyncStorage := p.clearAsyncStorage.getD defaultProps.clearAsyncStorage,
    startDelay := p.startDelay.getD defaultProps.startDelay,
    waitTime := p.waitTime.getD defaultProps.waitTime }

/-- `reRender` (`Tester.js` lines 110-112): `setState` with a fresh
`Math.random()` draw `r` for `key`; React merges the partial state, and
`state` has only the `key` field, so the whole state is replaced. -/
def reRender (t : TesterInst) (r : Nat) : TesterInst :=
  { t with stateKey := r }

/-- The node produced by `render`: a `TesterContext.Provider` with the
`key` attribute, the registry as its context `value`, and the single
child. -/
structure ProviderNode where
  key : Nat
  value : TestHookStore
  child : Nat
deriving DecidableEq

/-- `React.Children.only`: returns the single child, throws when given
zero or several children. -/
def childrenOnly : List Nat → Except String Nat
  | [c] => Except.ok c
  | _ => Except.error "React.Children.only expected to receive a single React element child."

/-- `render` (`Tester.js` lines 125-131): wraps the only child in a
`TesterContext.Provider` keyed by `state.key` whose value is
`this.testHookStore`. -/
def render (t : TesterInst) (children : List Nat) : Except String ProviderNode :=
  (childrenOnly children).map
    (fun c => { key := t.stateKey, value := t.testHookStore, child := c })

/-- React remounts a keyed subtree exactly when its `key` changes between
two renders of the parent. -/
def remountsProvider (before after : TesterInst) : Prop :=
  before.stateKey ≠ after.stateKey

/-! ### AsyncStorage and `clearAsync` -/

/-- The external `AsyncStorage` collaborator: its key-value store plus
explicit failure behaviour for the two operations `clearAsync` uses
(a `some e` means the operation rejects with error `e`). -/
structure AsyncStorage where
  store : List (String × String)
  getAllKeysFailure : Option String
  multiRemoveFailure : Option String
deriving DecidableEq

/-- `AsyncStorage.getAllKeys`: all keys of the store, or a rejection. -/
def getAllKeys (m : AsyncStorage) : Except String (List String) :=
  match m.getAllKeysFailure with
  | some e => Except.error e
  | none => Except.ok (m.store.map (fun kv => kv.1))

/-- `AsyncStorage.multiRemove`: removes the given keys, or rejects. -/
def multiRemove (m : AsyncStorage) (keys : List String) :
    Except String AsyncStorage :=
  match m.multiRemoveFailure with
  | some e => Except.error e
  | none => Except.ok { m with store := m.store.filter (fun kv => !(keys.contains kv.1)) }

/-- The warning `clearAsync` logs on failure (`Tester.js` line 120). -/
def clearAsyncWarning (e : String) : String :=
  "[Cavy] failed to clear AsyncStorage: " ++ e

/-- `clearAsync` (`Tester.js` lines 114-123): when `clearAsyncStorage` is
set, `await AsyncStorage.getAllKeys().then(AsyncStorage.multiRemove)`
inside a `try`/`catch` that logs a warning; otherwise nothing. Returns
the resulting store state and the warnings logged — the return type has
no error channel, mirroring that the `catch` swallows every failure. -/
def clearAsync (clearAsyncStorage : Bool) (m : AsyncStorage) :
    AsyncStorage × List String :=
  if clearAsyncStorage then
    match (getAllKeys m).bind (fun ks => multiRemove m ks) with
    | Except.ok mNew => (mNew, [])
    | Except.error e => (m, [clearAsyncWarning e])
  else (m, [])

/-! ### The registration/execution trace of `runTests` and `componentDidMount` -/

/-- The observable events of a run: spec invocation (`specs[i](scope)`),
case registration (a `describe` call inside spec `i` adding its `j`-th
case), the `await` of spec `i` resolving, the `new TestRunner(...)`
construction, the `runner.run()` call, the reporter's `onStart()`, and
the execution of case `j` of suite `i` by the runner. -/
inductive Event where
  | invokeSpec (i : Nat)
  | registerCase (i : Nat) (j : Nat)
  | specAwaited (i : Nat)
  | constructRunner
  | runnerRunCall
  | onStart
  | executeCase (i : Nat) (j : Nat)
deriving DecidableEq

/-- Events belonging to the spec-registration phase of `runTests`. -/
def Event.isSpecPhase : Event → Bool
  | Event.invokeSpec _ => true
  | Event.registerCase _ _ => true
  | Event.specAwaited _ => true
  | _ => false

/-- Events belonging to the runner: its construction, the `run()` call,
and case execution. -/
def Event.isRunnerPhase : Event → Bool
  | Event.constructRunner => true
  | Event.runnerRunCall => true
  | Event.executeCase _ _ => true
  | _ => false

/-- Test-case execution events. -/
def Event.isExec : Event → Bool
  | Event.executeCase _ _ => true
  | _ => false

/-- The reporter's `onStart()` event. -/
def Event.isOnStart : Event → Bool
  | Event.onStart => true
  | _ => false

/-- Spec-invocation events. -/
def Event.isInvoke : Event → Bool
  | Event.invokeSpec _ => true
  | _ => false

/-- Spec-`await`-resolution events. -/
def Event.isAwaited : Event → Bool
  | Event.specAwaited _ => true
  | _ => false

/-- The trace of one iteration of the `runTests` loop for spec `i`:
the spec function is invoked, it synchronously registers its cases in
declaration order, and the `await` resolves. -/
def specTrace (i : Nat) (s : Spec) : List Event :=
  Event.invokeSpec i :: ((List.range s.length).map (Event.registerCase i) ++ [Event.specAwaited i])

/-- The trace of the `runTests` loop over the remaining specs, the next
spec having index `k`. -/
def registrationTraceFrom : Nat → List Spec → List Event
  | _, [] => []
  | k, s :: rest => specTrace k s ++ registrationTraceFrom (k + 1) rest

/-- Modelled from the spec: the runner (`src/TestRunner.js` is not under
the verified sources) executes all collected cases, suite by suite in
order, cases in declaration order, strictly sequentially. Only the event
shape matters here; outcomes are modelled with the report in
`buildReport`. -/
def execTrace (specs : List Spec) : List Event :=
  (specs.enum).flatMap (fun p => (List.range p.2.length).map (Event.executeCase p.1))

/-- A fresh `new TestScope(this, waitTime)` (`Tester.js` line 90): empty
case list, bound to the constructing Tester and the configured wait
time. -/
structure TestScope where
  tester : TesterInst
  waitTime : Nat
  cases : List TestCase
deriving DecidableEq

/-- `new TestScope(this, waitTime)`. -/
def newTestScope (t : TesterInst) (waitTime : Nat) : TestScope :=
  { tester := t, waitTime := waitTime, cases := [] }

/-- Running a spec function against a scope appends the cases it
describes. -/
def applySpec (s : Spec) (scope : TestScope) : TestScope :=
  { scope with cases := scope.cases ++ s }

/-- The `TestRunner` constructed at `Tester.js` lines 97-104 with the
tester, the collected suites, and the configuration it is handed. -/
structure TestRunnerState where
  tester : TesterInst
  testSuites : List TestScope
  startDelay : Nat
  reporter : Sink
  sendReport : Bool
  only : Option (List String)
deriving DecidableEq

/-- What `runTests` produces: the collected suites, the runner as
constructed, and the event trace of the whole call (registration loop,
then runner construction and the `run()` call). -/
structure RunTestsResult where
  testSuites : List TestScope
  runner : TestRunnerState
  trace : List Event
deriving DecidableEq

/-- `runTests` (`Tester.js` lines 85-108): for each spec, in the order
supplied, construct a fresh `TestScope` bound to this Tester and
`waitTime`, invoke and await the spec on it, and collect the scope; then
construct the `TestRunner` with the collected suites and call
`runner.run()`. -/
def runTests (t : TesterInst) (waitTime startDelay : Nat) (sendReport : Bool)
    (only : Option (List String)) (specs : List Spec) : RunTestsResult :=
  let testSuites := specs.map (fun s => applySpec s (newTestScope t waitTime))
  { testSuites := testSuites
    runner :=
      { tester := t, testSuites := testSuites, startDelay := startDelay,
        reporter := t.reporter, sendReport := sendReport, only := only }
    trace := registrationTraceFrom 0 specs ++ [Event.constructRunner, Event.runnerRunCall] }

/-- The synchronous part of the async `runTests` call: it runs until its
first `await`. With no specs the loop is skipped and the runner is
constructed and `run()` called synchronously (case execution inside
`run()` is itself deferred past an `await`); with at least one spec, the
first spec is invoked and registers its cases synchronously, and the
call suspends at `await specs[0](scope)`. -/
def runTestsSyncPart : List Spec → List Event
  | [] => [Event.constructRunner, Event.runnerRunCall]
  | s :: _ => Event.invokeSpec 0 :: (List.range s.length).map (Event.registerCase 0)

/-- The deferred part of `runTests`: everything after its first
suspension point, which runs only after the caller's synchronous code
(the rest of `componentDidMount`) has finished. -/
def runTestsDeferredPart : List Spec → List Event
  | [] => []
  | _ :: rest =>
      Event.specAwaited 0 ::
        (registrationTraceFrom 1 rest ++ [Event.constructRunner, Event.runnerRunCall])

/-- The `onStart()` calls made by `componentDidMount` (`Tester.js` lines
78-81): exactly one when the reporter is not a function and its `type`
field is the string `realtime`, none otherwise. -/
def onStartEvents : Sink → List Event
  | Sink.fnSink _ => []
  | Sink.objSink _ ty => if ty = "realtime" then [Event.onStart] else []

/-- The event trace of `componentDidMount` (`Tester.js` lines 76-82) and
everything it triggers: `this.runTests()` is called without `await`, so
its synchronous part runs first; then `componentDidMount` continues and
(for a realtime object reporter) calls `onStart()`; then the deferred
part of `runTests` resumes; case execution by the runner, deferred
behind further `await`s inside `run()`, comes last. -/
def mountTrace (specs : List Spec) (rep : Sink) : List Event :=
  runTestsSyncPart specs ++ onStartEvents rep ++
    runTestsDeferredPart specs ++ execTrace specs

/-- `Precedes p q tr`: in trace `tr`, every `p`-event occurs strictly
before every `q`-event (the trace splits into a part free of `q`-events
followed by a part free of `p`-events). -/
def Precedes (p q : Event → Bool) (tr : List Event) : Prop :=
  ∃ l₁ l₂, tr = l₁ ++ l₂ ∧ (∀ e ∈ l₁, q e = false) ∧ (∀ e ∈ l₂, p e = false)

/-! ### The Scheduler's report (modelled from the spec) -/

/-- The status of one test run result. -/
inductive Status where
  | passed
  | failed (message : String)
  | timedOut
  | skipped
deriving DecidableEq

/-- One Test Run Result: description, originating suite and case index,
status, duration. -/
structure TestRunResult where
  description : String
  suiteIndex : Nat
  caseIndex : Nat
  status : Status
  durationMs : Nat
deriving DecidableEq

/-- The finished Report: the ordered results and the counts. -/
structure Report where
  results : List TestRunResult
  totalCount : Nat
  passedCount : Nat
  failedCount : Nat
  timedOutCount : Nat
  skippedCount : Nat
deriving DecidableEq

/-- How a case body behaves when run: settles successfully, throws or
rejects with a message, or fails to settle within the bound. -/
inductive CaseOutcome where
  | ok
  | thrown (message : String)
  | neverSettles
deriving DecidableEq

/-- Modelled from the spec: the `only` inclusion filter ("optional set of
case-name filters") — with no filter every case matches, otherwise a
case matches when its description is among the given names. -/
def caseMatches (only : Option (List String)) (d : String) : Bool :=
  match only with
  | none => true
  | some names => names.contains d

/-- Whether a status is `passed`. -/
def Status.isPassed : Status → Bool
  | Status.passed => true
  | _ => false

/-- Whether a status is `failed`. -/
def Status.isFailed : Status → Bool
  | Status.failed _ => true
  | _ => false

/-- Whether a status is `timedOut`. -/
def Status.isTimedOut : Status → Bool
  | Status.timedOut => true
  | _ => false

/-- Whether a status is `skipped`. -/
def Status.isSkipped : Status → Bool
  | Status.skipped => true
  | _ => false

/-- Modelled from the spec: the Scheduler runs one case (suite `si`,
index `ci`): a case dropped by the `only` filter is marked `Skipped`
rather than omitted; otherwise the body is raced against the timeout and
the result records `Passed`, `Failed` with the error, or `TimedOut`.
`outcome` and `dur` are oracles for the body's behaviour and measured
duration. -/
def runCase (only : Option (List String)) (outcome : Nat → Nat → CaseOutcome)
    (dur : Nat → Nat → Nat) (si ci : Nat) (c : TestCase) : TestRunResult :=
  if caseMatches only c.description then
    match outcome si ci with
    | CaseOutcome.ok =>
        { description := c.description, suiteIndex := si, caseIndex := ci,
          status := Status.passed, durationMs := dur si ci }
    | CaseOutcome.thrown e =>
        { description := c.description, suiteIndex := si, caseIndex := ci,
          status := Status.failed e, durationMs := dur si ci }
    | CaseOutcome.neverSettles =>
        { description := c.description, suiteIndex := si, caseIndex := ci,
          status := Status.timedOut, durationMs := dur si ci }
  else
    { description := c.description, suiteIndex := si, caseIndex := ci,
      status := Status.skipped, durationMs := 0 }

/-- Modelled from the spec: all Test Scopes' cases flattened in order and
run sequentially, every originally declared case yielding exactly one
result. -/
def runnerResults (suites : List Spec) (only : Option (List String))
    (outcome : Nat → Nat → CaseOutcome) (dur : Nat → Nat → Nat) :
    List TestRunResult :=
  (suites.enum).flatMap
    (fun p => (p.2.enum).map (fun q => runCase only outcome dur p.1 q.1 q.2))

/-- The number of results whose status satisfies `p`. -/
def countStatus (p : Status → Bool) (rs : List TestRunResult) : Nat :=
  rs.countP (fun r => p r.status)

/-- Modelled from the spec: after all cases are processed the Scheduler
assembles the final Report — the ordered results together with the
counts, `totalCount` covering all originally declared cases. -/
def buildReport (suites : List Spec) (only : Option (List String))
    (outcome : Nat → Nat → CaseOutcome) (dur : Nat → Nat → Nat) : Report :=
  let rs := runnerResults suites only outcome dur
  { results := rs
    totalCount := rs.length
    passedCount := countStatus Status.isPassed rs
    failedCount := countStatus Status.isFailed rs
    timedOutCount := countStatus Status.isTimedOut rs
    skippedCount := countStatus Status.isSkipped rs }

/-! ### Helper lemmas -/

theorem specPhase_classify (e : Event) (h : e.isSpecPhase = true) :
    e.isRunnerPhase = false ∧ e.isExec = false ∧ e.isOnStart = false := by
  cases e <;> simp_all [Event.isSpecPhase, Event.isRunnerPhase, Event.isExec, Event.isOnStart]

theorem exec_classify (e : Event) (h : e.isExec = true) :
    e.isSpecPhase = false ∧ e.isOnStart = false := by
  cases e <;> simp_all [Event.isSpecPhase, Event.isExec, Event.isOnStart]

theorem mem_specTrace_specPhase (k : Nat) (s : Spec) (e : Event)
    (h : e ∈ specTrace k s) : e.isSpecPhase = true := by
  simp only [specTrace, List.mem_cons, List.mem_append, List.mem_map,
    List.mem_singleton, List.not_mem_nil, or_false] at h
  rcases h with rfl | ⟨⟨j, _, rfl⟩ | rfl⟩ <;> rfl

theorem mem_registrationTraceFrom_specPhase :
    ∀ (specs : List Spec) (k : Nat) (e : Event),
      e ∈ registrationTraceFrom k specs → e.isSpecPhase = true := by
  intro specs
  induction specs with
  | nil => intro k e h; simp [registrationTraceFrom] at h
  | cons s rest ih =>
      intro k e h
      rcases List.mem_append.mp h with h1 | h1
      · exact mem_specTrace_specPhase k s e h1
      · exact ih (k + 1) e h1

theorem mem_execTrace_exec (specs : List Spec) (e : Event)
    (h : e ∈ execTrace specs) : e.isExec = true := by
  simp only [execTrace, List.mem_flatMap, List.mem_map] at h
  rcases h with ⟨p, _, j, _, rfl⟩
  rfl

theorem mem_runTestsSyncPart (specs : List Spec) (e : Event)
    (h : e ∈ runTestsSyncPart specs) :
    e.isExec = false ∧ e.isOnStart = false := by
  cases specs with
  | nil =>
      simp only [runTestsSyncPart, List.mem_cons, List.mem_singleton,
        List.not_mem_nil, or_false] at h
      rcases h with rfl | rfl <;> exact ⟨rfl, rfl⟩
  | cons s rest =>
      simp only [runTestsSyncPart, List.mem_cons, List.mem_map] at h
      rcases h with rfl | ⟨j, _, rfl⟩ <;> exact ⟨rfl, rfl⟩

theorem mem_runTestsDeferredPart (specs : List Spec) (e : Event)
    (h : e ∈ runTestsDeferredPart specs) :
    e.isExec = false ∧ e.isOnStart = false := by
  cases specs with
  | nil => simp [runTestsDeferredPart] at h
  | cons s rest =>
      simp only [runTestsDeferredPart, List.mem_cons, List.mem_append,
        List.mem_singleton, List.not_mem_nil, or_false] at h
      rcases h with rfl | ⟨h1 | (rfl | rfl)⟩
      · exact ⟨rfl, rfl⟩
      · have := specPhase_classify e (mem_registrationTraceFrom_specPhase rest 1 e h1)
        exact ⟨this.2.1, this.2.2⟩
      · exact ⟨rfl, rfl⟩
      · exact ⟨rfl, rfl⟩

theorem mem_onStartEvents (rep : Sink) (e : Event)
    (h : e ∈ onStartEvents rep) : e = Event.onStart := by
  cases rep with
  | fnSink f => simp [onStartEvents] at h
  | objSink cn ty =>
      by_cases hc : ty = "realtime" <;> simp [onStartEvents, hc] at h
      exact h

theorem mem_runTestsSyncPart_cons (s : Spec) (rest : List Spec) (e : Event)
    (h : e ∈ runTestsSyncPart (s :: rest)) : e.isSpecPhase = true := by
  simp only [runTestsSyncPart, List.mem_cons, List.mem_map] at h
  rcases h with rfl | ⟨j, _, rfl⟩ <;> rfl

theorem syncPart_append_deferredPart (specs : List Spec) :
    runTestsSyncPart specs ++ runTestsDeferredPart specs
      = registrationTraceFrom 0 specs ++ [Event.constructRunner, Event.runnerRunCall] := by
  cases specs with
  | nil => rfl
  | cons s rest =>
      simp [runTestsSyncPart, runTestsDeferredPart, registrationTraceFrom, specTrace]

theorem mem_mountTrace_of_mem_registrationTrace (specs : List Spec) (rep : Sink)
    (e : Event) (h : e ∈ registrationTraceFrom 0 specs) :
    e ∈ mountTrace specs rep := by
  have h2 : e ∈ runTestsSyncPart specs ++ runTestsDeferredPart specs := by
    rw [syncPart_append_deferredPart]
    exact List.mem_append_left _ h
  rcases List.mem_append.mp h2 with h3 | h3 <;>
    simp [mountTrace, List.mem_append, h3]

theorem invokeSpec_mem_registrationTraceFrom :
    ∀ (specs : List Spec) (k i : Nat), i < specs.length →
      Event.invokeSpec (k + i) ∈ registrationTraceFrom k specs := by
  intro specs
  induction specs with
  | nil => intro k i h; simp at h
  | cons s rest ih =>
      intro k i h
      cases i with
      | zero => simp [registrationTraceFrom, specTrace]
      | succ n =>
          have hrec := ih (k + 1) n (by simpa using h)
          have heq : k + (n + 1) = (k + 1) + n := by omega
          rw [heq]
          exact List.mem_append_right _ hrec

theorem specAwaited_mem_registrationTraceFrom :
    ∀ (specs : List Spec) (k i : Nat), i < specs.length →
      Event.specAwaited (k + i) ∈ registrationTraceFrom k specs := by
  intro specs
  induction specs with
  | nil => intro k i h; simp at h
  | cons s rest ih =>
      intro k i h
      cases i with
      | zero => simp [registrationTraceFrom, specTrace]
      | succ n =>
          have hrec := ih (k + 1) n (by simpa using h)
          have heq : k + (n + 1) = (k + 1) + n := by omega
          rw [heq]
          exact List.mem_append_right _ hrec

theorem filter_isInvoke_registrationTraceFrom :
    ∀ (specs : List Spec) (k : Nat),
      (registrationTraceFrom k specs).filter Event.isInvoke
        = (List.range' k specs.length).map Event.invokeSpec := by
  intro specs
  induction specs with
  | nil => intro k; simp [registrationTraceFrom]
  | cons s rest ih =>
      intro k
      rw [registrationTraceFrom, List.filter_append, ih (k + 1)]
      simp [specTrace, List.filter_map, List.range'_succ, Event.isInvoke,
        Function.comp]

theorem filter_isAwaited_registrationTraceFrom :
    ∀ (specs : List Spec) (k : Nat),
      (registrationTraceFrom k specs).filter Event.isAwaited
        = (List.range' k specs.length).map Event.specAwaited := by
  intro specs
  induction specs with
  | nil => intro k; simp [registrationTraceFrom]
  | cons s rest ih =>
      intro k
      rw [registrationTraceFrom, List.filter_append, ih (k + 1)]
      simp [specTrace, List.filter_map, List.range'_succ, Event.isAwaited,
        Function.comp]

theorem length_eq_countStatus_sum :
    ∀ rs : List TestRunResult,
      rs.length = countStatus Status.isPassed rs + countStatus Status.isFailed rs
        + countStatus Status.isTimedOut rs + countStatus Status.isSkipped rs := by
  intro rs
  induction rs with
  | nil => rfl
  | cons r rest ih =>
      have hone : (if Status.isPassed r.status then 1 else 0)
          + (if Status.isFailed r.status then 1 else 0)
          + (if Status.isTimedOut r.status then 1 else 0)
          + (if Status.isSkipped r.status then 1 else 0) = 1 := by
        cases r.status <;> rfl
      simp only [List.length_cons, countStatus, List.countP_cons] at *
      omega

/-! ### Claim theorems -/

/-- Claim C6: when the corresponding options are omitted, the
configuration defaults are `waitTime` = 2000 ms, `startDelay` = 0 ms and
the clear-persistent-store flag = false. -/
theorem defaultProps_values (p : TesterProps) :
    (p.waitTime = none → (resolveProps p).waitTime = 2000) ∧
    (p.startDelay = none → (resolveProps p).startDelay = 0) ∧
    (p.clearAsyncStorage = none → (resolveProps p).clearAsyncStorage = false) := by
  refine ⟨?_, ?_, ?_⟩ <;> intro h <;> simp [resolveProps, defaultProps, h]

theorem defaultProps_values_witness :
    ((⟨none, none, none⟩ : TesterProps).waitTime = none) ∧
    (resolveProps ⟨none, none, none⟩).waitTime = 2000 ∧
    (resolveProps ⟨none, none, none⟩).startDelay = 0 ∧
    (resolveProps ⟨none, none, none⟩).clearAsyncStorage = false :=
  ⟨rfl, (defaultProps_values ⟨none, none, none⟩).1 rfl,
    (defaultProps_values ⟨none, none, none⟩).2.1 rfl,
    (defaultProps_values ⟨none, none, none⟩).2.2 rfl⟩

/-- Claim C5: the reporter configuration is polymorphic over two shapes —
a function prop is used directly as the sink and a deprecation warning is
logged; a non-function prop is treated as a sink class and instantiated;
an absent prop instantiates the built-in default `Reporter`. -/
theorem constructor_reporter_polymorphic (k : Nat) (store : TestHookStore) :
    (∀ f, (testerConstructor k store (ReporterProp.fnProp f)).1.reporter
        = Sink.fnSink f
      ∧ (testerConstructor k store (ReporterProp.fnProp f)).2
        = [deprecationWarning]) ∧
    (∀ c, (testerConstructor k store (ReporterProp.classProp c)).1.reporter
        = instantiateSink c
      ∧ (testerConstructor k store (ReporterProp.classProp c)).2 = []) ∧
    ((testerConstructor k store ReporterProp.noReporter).1.reporter
        = instantiateSink Reporter
      ∧ (testerConstructor k store ReporterProp.noReporter).2 = []) :=
  ⟨fun _ => ⟨rfl, rfl⟩, fun _ => ⟨rfl, rfl⟩, rfl, rfl⟩

/-- Claim C7: `reRender` replaces the state key with the fresh draw and
changes nothing else about the Tester; since the provider is keyed by
`state.key`, a draw different from the current key remounts the provider
subtree, and the next `render` keys the provider with the new value. -/
theorem reRender_replaces_key (t : TesterInst) (r : Nat) (h : r ≠ t.stateKey) :
    (reRender t r).stateKey = r ∧
    (reRender t r).testHookStore = t.testHookStore ∧
    (reRender t r).reporter = t.reporter ∧
    remountsProvider t (reRender t r) ∧
    (∀ c, render (reRender t r) [c]
      = Except.ok { key := r, value := t.testHookStore, child := c }) :=
  ⟨rfl, rfl, rfl, fun hk => h hk.symm, fun _ => rfl⟩

theorem reRender_replaces_key_witness :
    ((1 : Nat) ≠ (0 : Nat)) ∧
    (reRender ⟨0, ⟨[]⟩, Sink.fnSink 0⟩ 1).stateKey = 1 ∧
    remountsProvider ⟨0, ⟨[]⟩, Sink.fnSink 0⟩ (reRender ⟨0, ⟨[]⟩, Sink.fnSink 0⟩ 1) :=
  ⟨by decide,
    (reRender_replaces_key ⟨0, ⟨[]⟩, Sink.fnSink 0⟩ 1 (by decide)).1,
    (reRender_replaces_key ⟨0, ⟨[]⟩, Sink.fnSink 0⟩ 1 (by decide)).2.2.2.1⟩

/-- Claim C10: `render` requires exactly one child — with exactly one
child it returns the context provider wrapping that child with the
registry as its value, and with zero or several children
`Children.only` throws. -/
theorem render_single_child (t : TesterInst) (children : List Nat) :
    (∀ c, children = [c] →
      render t children
        = Except.ok { key := t.stateKey, value := t.testHookStore, child := c }) ∧
    (children.length ≠ 1 → ∃ msg, render t children = Except.error msg) := by
  constructor
  · intro c hc
    subst hc
    rfl
  · intro h
    cases children with
    | nil => exact ⟨_, rfl⟩
    | cons a tl =>
        cases tl with
        | nil => simp at h
        | cons b tl2 => exact ⟨_, rfl⟩

theorem render_single_child_witness :
    (render ⟨0, ⟨[]⟩, Sink.fnSink 0⟩ [5]
      = Except.ok { key := 0, value := ⟨[]⟩, child := 5 }) ∧
    (∃ msg, render ⟨0, ⟨[]⟩, Sink.fnSink 0⟩ [] = Except.error msg) :=
  ⟨(render_single_child ⟨0, ⟨[]⟩, Sink.fnSink 0⟩ [5]).1 5 rfl,
    (render_single_child ⟨0, ⟨[]⟩, Sink.fnSink 0⟩ []).2 (by decide)⟩

/-- Claim C3: `clearAsync` never propagates a failure — with the flag off
it performs no store operation at all; with the flag on it removes every
key, and any error from either store operation is caught, only logging a
warning. -/
theorem clearAsync_never_fails (flag : Bool) (m : AsyncStorage) :
    (flag = false → clearAsync flag m = (m, [])) ∧
    (flag = true → m.getAllKeysFailure = none → m.multiRemoveFailure = none →
      (clearAsync flag m).1.store = [] ∧ (clearAsync flag m).2 = []) ∧
    (flag = true → ∀ e, m.getAllKeysFailure = some e →
      clearAsync flag m = (m, [clearAsyncWarning e])) ∧
    (flag = true → ∀ e, m.getAllKeysFailure = none → m.multiRemoveFailure = some e →
      clearAsync flag m = (m, [clearAsyncWarning e])) := by
  refine ⟨?_, ?_, ?_, ?_⟩
  · intro h; simp [clearAsync, h]
  · intro hf hg hr
    simp [clearAsync, hf, getAllKeys, hg, multiRemove, hr, Except.bind]
    intro a b hab
    exact ⟨b, hab⟩
  · intro hf e hg
    simp [clearAsync, hf, getAllKeys, hg, Except.bind]
  · intro hf e hg hr
    simp [clearAsync, hf, getAllKeys, hg, multiRemove, hr, Except.bind]

theorem clearAsync_never_fails_witness :
    (clearAsync false ⟨[("a", "1")], none, none⟩ = (⟨[("a", "1")], none, none⟩, [])) ∧
    ((clearAsync true ⟨[("a", "1")], none, none⟩).1.store = []) ∧
    (clearAsync true ⟨[("a", "1")], some "boom", none⟩
      = (⟨[("a", "1")], some "boom", none⟩, [clearAsyncWarning "boom"])) :=
  ⟨(clearAsync_never_fails false ⟨[("a", "1")], none, none⟩).1 rfl,
    ((clearAsync_never_fails true ⟨[("a", "1")], none, none⟩).2.1 rfl rfl rfl).1,
    (clearAsync_never_fails true ⟨[("a", "1")], some "boom", none⟩).2.2.1 rfl "boom" rfl⟩

/-- Claim C9: for every finished Report, `totalCount` equals
`passedCount + failedCount + timedOutCount + skippedCount`. -/
theorem report_totalCount_partition (suites : List Spec)
    (filt : Option (List String)) (outcome : Nat → Nat → CaseOutcome)
    (dur : Nat → Nat → Nat) :
    (buildReport suites filt outcome dur).totalCount
      = (buildReport suites filt outcome dur).passedCount
        + (buildReport suites filt outcome dur).failedCount
        + (buildReport suites filt outcome dur).timedOutCount
        + (buildReport suites filt outcome dur).skippedCount :=
  length_eq_countStatus_sum (runnerResults suites filt outcome dur)

/-- Claim C8: the core never mutates the Element Registry — the
constructor stores the given `testHookStore` unchanged, `reRender` leaves
it untouched, every scope and the runner are handed a reference to this
same Tester (through which the store is reached), and `render` passes the
stored registry itself as the provider's value. -/
theorem tester_never_mutates_registry
    (k r w sd c : Nat) (store : TestHookStore) (rp : ReporterProp)
    (t : TesterInst) (sr : Bool) (filt : Option (List String)) (specs : List Spec) :
    (testerConstructor k store rp).1.testHookStore = store ∧
    (reRender t r).testHookStore = t.testHookStore ∧
    (∀ scope ∈ (runTests t w sd sr filt specs).testSuites, scope.tester = t) ∧
    (runTests t w sd sr filt specs).runner.tester = t ∧
    render t [c]
      = Except.ok { key := t.stateKey, value := t.testHookStore, child := c } := by
  refine ⟨?_, rfl, ?_, rfl, rfl⟩
  · cases rp <;> rfl
  · intro scope hs
    simp only [runTests, List.mem_map] at hs
    rcases hs with ⟨s, _, rfl⟩
    rfl

theorem tester_never_mutates_registry_witness :
    (testerConstructor 3 ⟨[("a", 1)]⟩ ReporterProp.noReporter).1.testHookStore
      = ⟨[("a", 1)]⟩ ∧
    (applySpec [⟨"c1"⟩] (newTestScope ⟨0, ⟨[("a", 1)]⟩, Sink.fnSink 0⟩ 2000)).tester
      = ⟨0, ⟨[("a", 1)]⟩, Sink.fnSink 0⟩ :=
  ⟨(tester_never_mutates_registry 3 0 2000 0 5 ⟨[("a", 1)]⟩ ReporterProp.noReporter
      ⟨0, ⟨[("a", 1)]⟩, Sink.fnSink 0⟩ false none [[⟨"c1"⟩]]).1,
    (tester_never_mutates_registry 3 0 2000 0 5 ⟨[("a", 1)]⟩ ReporterProp.noReporter
      ⟨0, ⟨[("a", 1)]⟩, Sink.fnSink 0⟩ false none [[⟨"c1"⟩]]).2.2.1
      (applySpec [⟨"c1"⟩] (newTestScope ⟨0, ⟨[("a", 1)]⟩, Sink.fnSink 0⟩ 2000))
      (by decide)⟩

/-- Claim C2: `runTests` invokes each spec exactly once, in the order
supplied, each with a fresh Test Scope bound to this Tester and the
configured `waitTime`, and the collected scopes are handed to the runner
in the same order: the suites are exactly the specs mapped to fresh
scopes, the runner receives that list, and the trace's invocation (and
`await`-resolution) events are exactly one per spec, in index order. -/
theorem runTests_each_spec_once_in_order (t : TesterInst) (w sd : Nat)
    (sr : Bool) (filt : Option (List String)) (specs : List Spec) :
    (runTests t w sd sr filt specs).testSuites
      = specs.map (fun s => { tester := t, waitTime := w, cases := s }) ∧
    (runTests t w sd sr filt specs).runner.testSuites
      = (runTests t w sd sr filt specs).testSuites ∧
    ((runTests t w sd sr filt specs).trace.filter Event.isInvoke)
      = (List.range specs.length).map Event.invokeSpec ∧
    ((runTests t w sd sr filt specs).trace.filter Event.isAwaited)
      = (List.range specs.length).map Event.specAwaited := by
  refine ⟨rfl, rfl, ?_, ?_⟩
  · show ((registrationTraceFrom 0 specs
        ++ [Event.constructRunner, Event.runnerRunCall]).filter Event.isInvoke) = _
    rw [List.filter_append, filter_isInvoke_registrationTraceFrom specs 0,
      List.range_eq_range']
    simp [List.filter, Event.isInvoke]
  · show ((registrationTraceFrom 0 specs
        ++ [Event.constructRunner, Event.runnerRunCall]).filter Event.isAwaited) = _
    rw [List.filter_append, filter_isAwaited_registrationTraceFrom specs 0,
      List.range_eq_range']
    simp [List.filter, Event.isAwaited]

/-- Claim C1: every spec function is invoked and its `await` resolves
before the runner is constructed and `run()` is called, and no case
execution event precedes any spec-registration event — in every mount
trace the spec-phase events all come before the runner-phase events, the
runner construction and `run()` call do occur, and every supplied spec's
invocation and resolution occur. -/
theorem specs_registered_before_runner (specs : List Spec) (rep : Sink) :
    Precedes Event.isSpecPhase Event.isRunnerPhase (mountTrace specs rep) ∧
    (∀ i, i < specs.length →
      Event.invokeSpec i ∈ mountTrace specs rep ∧
      Event.specAwaited i ∈ mountTrace specs rep) ∧
    Event.constructRunner ∈ mountTrace specs rep ∧
    Event.runnerRunCall ∈ mountTrace specs rep := by
  refine ⟨?_, ?_, ?_, ?_⟩
  · cases specs with
    | nil =>
        refine ⟨[], mountTrace [] rep, rfl, ?_, ?_⟩
        · intro e he; simp at he
        · intro e he
          simp only [mountTrace, runTestsSyncPart, runTestsDeferredPart, execTrace,
            List.mem_append, List.mem_cons, List.mem_singleton, List.not_mem_nil,
            or_false, List.enum_nil, List.flatMap_nil] at he
          rcases he with (rfl | rfl) | h1
          · rfl
          · rfl
          · rw [mem_onStartEvents rep e h1]; rfl
    | cons s rest =>
        refine ⟨runTestsSyncPart (s :: rest) ++ onStartEvents rep
            ++ (Event.specAwaited 0 :: registrationTraceFrom 1 rest),
          [Event.constructRunner, Event.runnerRunCall] ++ execTrace (s :: rest),
          ?_, ?_, ?_⟩
        · simp [mountTrace, runTestsDeferredPart]
        · intro e he
          simp only [List.mem_append, List.mem_cons] at he
          rcases he with (h1 | h1) | (rfl | h1)
          · exact (specPhase_classify e (mem_runTestsSyncPart_cons s rest e h1)).1
          · rw [mem_onStartEvents rep e h1]; rfl
          · rfl
          · exact (specPhase_classify e
              (mem_registrationTraceFrom_specPhase rest 1 e h1)).1
        · intro e he
          simp only [List.mem_append, List.mem_cons, List.mem_singleton,
            List.not_mem_nil, or_false] at he
          rcases he with (rfl | rfl) | h1
          · rfl
          · rfl
          · exact (exec_classify e (mem_execTrace_exec (s :: rest) e h1)).1
  · intro i hi
    constructor
    · have h1 := invokeSpec_mem_registrationTraceFrom specs 0 i hi
      rw [Nat.zero_add] at h1
      exact mem_mountTrace_of_mem_registrationTrace specs rep _ h1
    · have h1 := specAwaited_mem_registrationTraceFrom specs 0 i hi
      rw [Nat.zero_add] at h1
      exact mem_mountTrace_of_mem_registrationTrace specs rep _ h1
  · cases specs <;> simp [mountTrace, runTestsSyncPart, runTestsDeferredPart]
  · cases specs <;> simp [mountTrace, runTestsSyncPart, runTestsDeferredPart]

theorem specs_registered_before_runner_witness :
    Event.specAwaited 0 ∈ mountTrace [[⟨"a"⟩, ⟨"b"⟩]] (Sink.objSink 0 "realtime") :=
  ((specs_registered_before_runner [[⟨"a"⟩, ⟨"b"⟩]]
    (Sink.objSink 0 "realtime")).2.1 0 (by decide)).2

/-- Claim C4: the `onStart()` of an object-shaped realtime reporter is
the only way an `onStart` event enters the mount trace, and it always
precedes every case-execution event; for a function reporter or a
non-realtime object reporter, `onStart` never occurs. -/
theorem onStart_before_first_case (specs : List Spec) (rep : Sink) :
    (Event.onStart ∈ mountTrace specs rep ↔ ∃ cn, rep = Sink.objSink cn "realtime") ∧
    Precedes Event.isOnStart Event.isExec (mountTrace specs rep) := by
  constructor
  · constructor
    · intro h
      simp only [mountTrace, List.mem_append] at h
      rcases h with ((h1 | h2) | h3) | h4
      · simpa [Event.isOnStart] using (mem_runTestsSyncPart specs _ h1).2
      · cases rep with
        | fnSink f => simp [onStartEvents] at h2
        | objSink cn ty =>
            by_cases hc : ty = "realtime"
            · exact ⟨cn, by rw [hc]⟩
            · simp [onStartEvents, hc] at h2
      · simpa [Event.isOnStart] using (mem_runTestsDeferredPart specs _ h3).2
      · simpa [Event.isOnStart] using (exec_classify _ (mem_execTrace_exec specs _ h4)).2
    · rintro ⟨cn, rfl⟩
      simp [mountTrace, onStartEvents]
  · refine ⟨runTestsSyncPart specs ++ onStartEvents rep ++ runTestsDeferredPart specs,
      execTrace specs, by simp [mountTrace], ?_, ?_⟩
    · intro e he
      simp only [List.mem_append] at he
      rcases he with (h1 | h2) | h3
      · exact (mem_runTestsSyncPart specs e h1).1
      · rw [mem_onStartEvents rep e h2]; rfl
      · exact (mem_runTestsDeferredPart specs e h3).1
    · intro e he
      exact (exec_classify e (mem_execTrace_exec specs e he)).2

theorem onStart_before_first_case_witness :
    Event.onStart ∈ mountTrace [[⟨"a"⟩]] (Sink.objSink 0 "realtime") :=
  (onStart_before_first_case [[⟨"a"⟩]] (Sink.objSink 0 "realtime")).1.mpr ⟨0, rfl⟩

end Cavy
